import Mathlib

/-!
Verification of the `ihylts` comic crawler/enrichment backend.

This file shallowly embeds the Python sources under `backend/` (scraper,
analyzer, database manager) as executable Lean definitions and proves the
specification claims about them.  Python dicts become association lists,
`Optional` values become `Option`, exceptions become explicit outcome
values, and external effects (HTTP fetches, image downloads, OCR, the
database driver's error behaviour) become oracle parameters.
-/

/- ===================================================================
   Python string helpers shared by `filter_copyright_text`,
   `extract_panel_urls` and the metadata extractor.
   =================================================================== -/

/-- Characters matched by Python's `\s` regex class (ASCII range) and by
`str.strip` / `str.split()` for the inputs this system handles. -/
def isPySpace (c : Char) : Bool :=
  c = ' ' || c = '\t' || c = '\n' || c = '\r' || c = Char.ofNat 11 || c = Char.ofNat 12

/-- Case-insensitive literal match: if `l` starts with the (lowercase)
pattern `pat` up to `Char.toLower`, return the remainder, else `none`.
This is the building block for the two regexes in
`filter_copyright_text`, whose literal parts are matched with
`re.IGNORECASE`. -/
def stripLitCI : List Char → List Char → Option (List Char)
  | [], l => some l
  | _ :: _, [] => none
  | p :: ps, c :: cs => if c.toLower = p then stripLitCI ps cs else none

/-- Exactly four decimal digits, as matched by the regex fragment
`\d{4}` (a fifth digit makes the following literal fail, so matching
exactly four is the deterministic behaviour of the full pattern). -/
def takeDigits4 : List Char → Option (List Char)
  | d1 :: d2 :: d3 :: d4 :: rest =>
    if d1.isDigit && d2.isDigit && d3.isDigit && d4.isDigit then some rest else none
  | _ => none

/-- Matcher for the copyright regex
`(copyright|©)\s*\d{4}\s*Mike\s*Krahulik\s*(?:&|and)\s*Jerry\s*Holkins`
(case-insensitive) at the head of `l`: returns the remainder after the
match.  Because every `\s*` is followed by a character class disjoint
from whitespace, greedy matching without backtracking coincides with
Python `re` semantics. -/
def matchCopyrightAt (l : List Char) : Option (List Char) :=
  let step1 : Option (List Char) :=
    match stripLitCI "copyright".data l with
    | some r => some r
    | none => stripLitCI "©".data l
  match step1 with
  | none => none
  | some r1 =>
    match takeDigits4 (r1.dropWhile isPySpace) with
    | none => none
    | some r2 =>
      match stripLitCI "mike".data (r2.dropWhile isPySpace) with
      | none => none
      | some r3 =>
        match stripLitCI "krahulik".data (r3.dropWhile isPySpace) with
        | none => none
        | some r4 =>
          let r4ws := r4.dropWhile isPySpace
          let amp : Option (List Char) :=
            match stripLitCI "&".data r4ws with
            | some r => some r
            | none => stripLitCI "and".data r4ws
          match amp with
          | none => none
          | some r5 =>
            match stripLitCI "jerry".data (r5.dropWhile isPySpace) with
            | none => none
            | some r6 => stripLitCI "holkins".data (r6.dropWhile isPySpace)

/-- Matcher for the URL regex `www\.penny-arcade\.com` (case-insensitive)
at the head of `l`. -/
def matchUrlAt (l : List Char) : Option (List Char) :=
  stripLitCI "www.penny-arcade.com".data l

/-- One left-to-right pass of `re.sub(pattern, '', text)`: at each
position try the matcher; on a match drop the matched characters and
continue after them, otherwise keep the character.  `fuel` bounds the
recursion; with `fuel = l.length` it never runs out because a match
consumes at least one character. -/
def removeAllGo (mAt : List Char → Option (List Char)) : Nat → List Char → List Char
  | _, [] => []
  | 0, l => l
  | fuel + 1, c :: rest =>
    match mAt (c :: rest) with
    | some rem => removeAllGo mAt fuel rem
    | none => c :: removeAllGo mAt fuel rest

/-- All non-overlapping occurrences of the pattern removed, i.e.
`re.sub(pattern, '', text)`. -/
def removeAll (mAt : List Char → Option (List Char)) (l : List Char) : List Char :=
  removeAllGo mAt l.length l

/-- Does the pattern match at the head of any suffix of `l`? -/
def hasMatchB (mAt : List Char → Option (List Char)) : List Char → Bool
  | [] => (mAt []).isSome
  | c :: rest => (mAt (c :: rest)).isSome || hasMatchB mAt rest

/-- The whitespace-collapse step `re.sub(r'\s+', ' ', text)`: every
maximal run of whitespace becomes a single space.  `prevWs` records a
pending (not yet emitted) whitespace run. -/
def collapseGo : Bool → List Char → List Char
  | true, [] => [' ']
  | false, [] => []
  | prevWs, c :: rest =>
    if isPySpace c then collapseGo true rest
    else if prevWs then ' ' :: c :: collapseGo false rest
    else c :: collapseGo false rest

/-- Remove the trailing whitespace run (the right half of Python
`str.strip`). -/
def dropTrailingWs : List Char → List Char
  | [] => []
  | c :: rest =>
    let r := dropTrailingWs rest
    if r.isEmpty && isPySpace c then [] else c :: r

/-- Python `str.strip()` on a character list. -/
def pyStrip (l : List Char) : List Char :=
  dropTrailingWs (l.dropWhile isPySpace)

/-- Shallow embedding of `filter_copyright_text` (identical in
`scraper/main.py` lines 173-190 and `analyzer/main.py` lines 53-70):
early-return on the falsy empty string, remove all copyright-notice
matches, remove all site-URL matches, collapse whitespace runs to single
spaces, and strip. -/
def filter_copyright_text (text : String) : String :=
  if text = "" then text
  else
    let cleaned1 := removeAll matchCopyrightAt text.data
    let cleaned2 := removeAll matchUrlAt cleaned1
    ⟨pyStrip (collapseGo false cleaned2)⟩

/- Whitespace-normal-form predicates used to state the
whitespace-collapse part of the filter's contract. -/

/-- Every whitespace character is a plain space and no two adjacent
characters are both whitespace. -/
def chainOk : List Char → Bool
  | [] => true
  | [c] => !(isPySpace c) || (c == ' ')
  | c :: d :: rest =>
    (!(isPySpace c) || ((c == ' ') && !(isPySpace d))) && chainOk (d :: rest)

/-- The first character, if any, is not whitespace. -/
def headNotWs : List Char → Bool
  | [] => true
  | c :: _ => !(isPySpace c)

/-- The last character, if any, is not whitespace. -/
def lastNotWs : List Char → Bool
  | [] => true
  | [c] => !(isPySpace c)
  | _ :: d :: rest => lastNotWs (d :: rest)

/-- Whitespace-normalized: single internal spaces only, trimmed at both
ends. -/
def wsNormalizedB (l : List Char) : Bool :=
  chainOk l && headNotWs l && lastNotWs l

/- ===================================================================
   Lemmas about the whitespace machinery, towards the contract of
   `filter_copyright_text`.
   =================================================================== -/

theorem chainOk_cons {c : Char} {l : List Char} (hc : isPySpace c = false)
    (hl : chainOk l = true) : chainOk (c :: l) = true := by
  cases l with
  | nil => simp [chainOk, hc]
  | cons d rest => simp only [chainOk, hc, Bool.not_false, Bool.true_or, Bool.true_and]; exact hl

theorem chainOk_space_cons {c : Char} {l : List Char} (hc : isPySpace c = false)
    (hl : chainOk (c :: l) = true) : chainOk (' ' :: c :: l) = true := by
  simp only [chainOk, hc]
  rw [hl]
  decide

theorem chainOk_tail {c : Char} {l : List Char} (h : chainOk (c :: l) = true) :
    chainOk l = true := by
  cases l with
  | nil => rfl
  | cons d rest =>
    simp only [chainOk, Bool.and_eq_true] at h
    exact h.2

theorem chainOk_head {c : Char} {l : List Char} (h : chainOk (c :: l) = true) :
    (!(isPySpace c) || (c == ' ')) = true := by
  cases l with
  | nil => simpa [chainOk] using h
  | cons d rest =>
    simp only [chainOk, Bool.and_eq_true, Bool.or_eq_true] at h
    simp only [Bool.or_eq_true]
    rcases h.1 with h1 | h1
    · exact Or.inl h1
    · exact Or.inr h1.1

theorem chainOk_collapseGo : ∀ (l : List Char) (prevWs : Bool),
    chainOk (collapseGo prevWs l) = true
  | [], true => by decide
  | [], false => rfl
  | c :: rest, prevWs => by
    by_cases hc : isPySpace c = true
    · have : collapseGo prevWs (c :: rest) = collapseGo true rest := by
        simp [collapseGo, hc]
      rw [this]
      exact chainOk_collapseGo rest true
    · have hc' : isPySpace c = false := by simpa using hc
      have hrec := chainOk_collapseGo rest false
      cases prevWs with
      | false =>
        have : collapseGo false (c :: rest) = c :: collapseGo false rest := by
          simp [collapseGo, hc']
        rw [this]
        exact chainOk_cons hc' hrec
      | true =>
        have : collapseGo true (c :: rest) = ' ' :: c :: collapseGo false rest := by
          simp [collapseGo, hc']
        rw [this]
        exact chainOk_space_cons hc' (chainOk_cons hc' hrec)

theorem headNotWs_dropWhile (l : List Char) :
    headNotWs (l.dropWhile isPySpace) = true := by
  induction l with
  | nil => rfl
  | cons c rest ih =>
    rw [List.dropWhile_cons]
    by_cases hc : isPySpace c = true
    · rw [if_pos hc]; exact ih
    · rw [if_neg hc]; simpa [headNotWs] using hc

theorem chainOk_dropWhile {l : List Char} (h : chainOk l = true) :
    chainOk (l.dropWhile isPySpace) = true := by
  induction l with
  | nil => exact h
  | cons c rest ih =>
    rw [List.dropWhile_cons]
    by_cases hc : isPySpace c = true
    · rw [if_pos hc]; exact ih (chainOk_tail h)
    · rw [if_neg hc]; exact h

theorem dropTrailingWs_cons (c : Char) (rest : List Char) :
    dropTrailingWs (c :: rest) = [] ∨
      dropTrailingWs (c :: rest) = c :: dropTrailingWs rest := by
  by_cases h : ((dropTrailingWs rest).isEmpty && isPySpace c) = true
  · left; rw [dropTrailingWs]; simp only [if_pos h]
  · right; rw [dropTrailingWs]; simp only [if_neg h]

theorem lastNotWs_dropTrailingWs : ∀ (l : List Char),
    lastNotWs (dropTrailingWs l) = true
  | [] => rfl
  | c :: rest => by
    by_cases h : ((dropTrailingWs rest).isEmpty && isPySpace c) = true
    · rw [dropTrailingWs]; simp only [if_pos h]; rfl
    · rw [dropTrailingWs]; simp only [if_neg h]
      cases hr : dropTrailingWs rest with
      | nil =>
        have hws : isPySpace c = false := by
          rw [hr] at h
          simpa using h
        simp [lastNotWs, hws]
      | cons d r2 =>
        have hrec := lastNotWs_dropTrailingWs rest
        rw [hr] at hrec
        simpa [lastNotWs] using hrec

theorem chainOk_dropTrailingWs : ∀ (l : List Char), chainOk l = true →
    chainOk (dropTrailingWs l) = true
  | [], h => h
  | c :: rest, h => by
    rcases dropTrailingWs_cons c rest with hd | hd
    · rw [hd]; rfl
    · rw [hd]
      cases rest with
      | nil =>
        simp only [dropTrailingWs]
        simpa [chainOk] using h
      | cons e rest2 =>
        have hrec := chainOk_dropTrailingWs (e :: rest2) (chainOk_tail h)
        rcases dropTrailingWs_cons e rest2 with he | he
        · rw [he]
          cases hws : isPySpace c with
          | false => simp [chainOk, hws]
          | true =>
            have := chainOk_head h
            rw [hws] at this
            simp only [Bool.not_true, Bool.false_or] at this
            simp [chainOk, hws, this]
        · rw [he] at hrec ⊢
          simp only [chainOk, Bool.and_eq_true] at h ⊢
          exact ⟨h.1, hrec⟩

theorem headNotWs_dropTrailingWs {l : List Char} (h : headNotWs l = true) :
    headNotWs (dropTrailingWs l) = true := by
  cases l with
  | nil => rfl
  | cons c rest =>
    rcases dropTrailingWs_cons c rest with hd | hd
    · rw [hd]; rfl
    · rw [hd]; exact h

theorem dropWhile_id_of_headNotWs {l : List Char} (h : headNotWs l = true) :
    l.dropWhile isPySpace = l := by
  cases l with
  | nil => rfl
  | cons c rest =>
    rw [List.dropWhile_cons]
    simp only [headNotWs, Bool.not_eq_true'] at h
    simp [h]

theorem dropTrailingWs_id_of_lastNotWs : ∀ (l : List Char), lastNotWs l = true →
    dropTrailingWs l = l
  | [], _ => rfl
  | [c], h => by
    simp only [lastNotWs, Bool.not_eq_true'] at h
    simp [dropTrailingWs, h]
  | c :: d :: rest, h => by
    have hrec := dropTrailingWs_id_of_lastNotWs (d :: rest) (by simpa [lastNotWs] using h)
    rw [dropTrailingWs, hrec]
    simp

theorem pyStrip_id_of_wsNormalized {l : List Char} (h : wsNormalizedB l = true) :
    pyStrip l = l := by
  simp only [wsNormalizedB, Bool.and_eq_true] at h
  rw [pyStrip, dropWhile_id_of_headNotWs h.1.2, dropTrailingWs_id_of_lastNotWs l h.2]

theorem collapseGo_fixed : ∀ (t : List Char), chainOk t = true → headNotWs t = true →
    lastNotWs t = true →
    collapseGo false t = t ∧ collapseGo true t = ' ' :: t
  | [], _, _, _ => ⟨rfl, rfl⟩
  | [c], _, hh, _ => by
    have hcws : isPySpace c = false := by simpa [headNotWs] using hh
    exact ⟨by simp [collapseGo, hcws], by simp [collapseGo, hcws]⟩
  | c :: d :: rest, hc, hh, hl => by
    have hcws : isPySpace c = false := by simpa [headNotWs] using hh
    by_cases hdws : isPySpace d = true
    · -- d is a whitespace character: chainOk forces the next character to
      -- be non-whitespace, and it exists since the run is not trailing.
      cases rest with
      | nil => simp [lastNotWs, hdws] at hl
      | cons e rest2 =>
        have hde : chainOk (d :: e :: rest2) = true := chainOk_tail hc
        simp only [chainOk, Bool.and_eq_true, Bool.or_eq_true] at hde
        have hne : isPySpace e = false := by
          rcases hde.1 with h1 | h1
          · rw [hdws] at h1; simp at h1
          · simpa using h1.2
        have hrec := collapseGo_fixed (e :: rest2) hde.2 (by simp [headNotWs, hne])
          (by simpa [lastNotWs] using hl)
        have hmid : collapseGo false (d :: e :: rest2) = ' ' :: e :: rest2 := by
          have h1 : collapseGo false (d :: e :: rest2) = collapseGo true (e :: rest2) := by
            simp [collapseGo, hdws]
          rw [h1, hrec.2]
        constructor
        · have h2 : collapseGo false (c :: d :: e :: rest2)
              = c :: collapseGo false (d :: e :: rest2) := by
            simp [collapseGo, hcws]
          rw [h2, hmid]
          have hdsp : d = ' ' := by
            rcases hde.1 with h1 | h1
            · rw [hdws] at h1; simp at h1
            · simpa using h1.1
          rw [hdsp]
        · have h2 : collapseGo true (c :: d :: e :: rest2)
              = ' ' :: c :: collapseGo false (d :: e :: rest2) := by
            simp [collapseGo, hcws]
          rw [h2, hmid]
          have hdsp : d = ' ' := by
            rcases hde.1 with h1 | h1
            · rw [hdws] at h1; simp at h1
            · simpa using h1.1
          rw [hdsp]
    · have hdws' : isPySpace d = false := by simpa using hdws
      have hrec := collapseGo_fixed (d :: rest) (chainOk_tail hc)
        (by simp [headNotWs, hdws']) (by simpa [lastNotWs] using hl)
      constructor
      · have h2 : collapseGo false (c :: d :: rest)
            = c :: collapseGo false (d :: rest) := by
          simp [collapseGo, hcws]
        rw [h2, hrec.1]
      · have h2 : collapseGo true (c :: d :: rest)
            = ' ' :: c :: collapseGo false (d :: rest) := by
          simp [collapseGo, hcws]
        rw [h2, hrec.1]

theorem removeAllGo_id (mAt : List Char → Option (List Char)) :
    ∀ (fuel : Nat) (l : List Char), hasMatchB mAt l = false →
      removeAllGo mAt fuel l = l := by
  intro fuel
  induction fuel with
  | zero => intro l _; cases l <;> rfl
  | succ n ih =>
    intro l h
    cases l with
    | nil => rfl
    | cons c rest =>
      simp only [hasMatchB, Bool.or_eq_false_iff] at h
      cases hm : mAt (c :: rest) with
      | some rem => rw [hm] at h; simp at h
      | none =>
        simp only [removeAllGo, hm]
        rw [ih rest h.2]

theorem removeAll_id {mAt : List Char → Option (List Char)} {l : List Char}
    (h : hasMatchB mAt l = false) : removeAll mAt l = l :=
  removeAllGo_id mAt l.length l h

/-- Every output of `filter_copyright_text` is whitespace-normalized:
internal whitespace runs are single spaces and both ends are trimmed. -/
theorem wsNormalized_filter (s : String) :
    wsNormalizedB (filter_copyright_text s).data = true := by
  by_cases hs : s = ""
  · subst hs; decide
  · simp only [filter_copyright_text, hs, if_false]
    set u := removeAll matchUrlAt (removeAll matchCopyrightAt s.data) with hu
    have h1 : chainOk (collapseGo false u) = true := chainOk_collapseGo u false
    have h2 : chainOk ((collapseGo false u).dropWhile isPySpace) = true :=
      chainOk_dropWhile h1
    simp only [wsNormalizedB, pyStrip, Bool.and_eq_true]
    refine ⟨⟨chainOk_dropTrailingWs _ h2, ?_⟩, lastNotWs_dropTrailingWs _⟩
    exact headNotWs_dropTrailingWs (headNotWs_dropWhile _)

/-- C4, counterexample: `filter_copyright_text` is not idempotent.
Removing the site URL from `"www.penny-www.penny-arcade.comarcade.com"`
splices the surrounding characters into a fresh occurrence of
`www.penny-arcade.com`, which only a second application removes, so
filtering twice differs from filtering once. -/
theorem filter_copyright_text_not_idempotent :
    filter_copyright_text
        (filter_copyright_text "www.penny-www.penny-arcade.comarcade.com")
      ≠ filter_copyright_text "www.penny-www.penny-arcade.comarcade.com" := by
  decide

/-- C4 (amended): `filter_copyright_text` is idempotent on every input
whose once-filtered result contains no further occurrence of the
copyright pattern or the site-URL pattern (one application can splice
characters into a new occurrence, so unrestricted idempotence fails);
the concrete variants hold — `"copyright 2023 Mike Krahulik & Jerry
Holkins."` filters to `"."` and `"© 2024 Mike Krahulik and Jerry
Holkins"` filters to `""` — and every result has whitespace runs
collapsed to single spaces with both ends trimmed. -/
theorem filter_copyright_text_contract :
    (∀ s : String,
        hasMatchB matchCopyrightAt (filter_copyright_text s).data = false →
        hasMatchB matchUrlAt (filter_copyright_text s).data = false →
        filter_copyright_text (filter_copyright_text s) = filter_copyright_text s)
    ∧ filter_copyright_text "copyright 2023 Mike Krahulik & Jerry Holkins." = "."
    ∧ filter_copyright_text "© 2024 Mike Krahulik and Jerry Holkins" = ""
    ∧ (∀ s : String, wsNormalizedB (filter_copyright_text s).data = true) := by
  refine ⟨?_, by decide, by decide, wsNormalized_filter⟩
  intro s h1 h2
  have hws := wsNormalized_filter s
  set t := filter_copyright_text s with hts
  by_cases ht : t = ""
  · rw [ht]; rfl
  · have hws' := hws
    simp only [wsNormalizedB, Bool.and_eq_true] at hws'
    rw [filter_copyright_text, if_neg ht]
    show (⟨pyStrip (collapseGo false
      (removeAll matchUrlAt (removeAll matchCopyrightAt t.data)))⟩ : String) = t
    rw [removeAll_id h1, removeAll_id h2,
      (collapseGo_fixed t.data hws'.1.1 hws'.1.2 hws'.2).1,
      pyStrip_id_of_wsNormalized hws]

/-- Witness for the amended C4: the conditional idempotence applied to a
concrete input whose filtered form is pattern-free. -/
theorem filter_copyright_text_contract_witness :
    filter_copyright_text (filter_copyright_text "No copyright here.") =
      filter_copyright_text "No copyright here." :=
  filter_copyright_text_contract.1 "No copyright here." (by decide) (by decide)

/- ===================================================================
   Data model: panel dictionaries, comic records, the comics table and
   the Python-object store used to express mutation claims.
   =================================================================== -/

/-- A panel dictionary as built by `extract_panel_urls` and consumed by
`process_comic_panels`: the `num_panels` key (which a hand-made or
decoded dict may lack — hence `Option`, with `dict.get("num_panels", 0)`
modelled by `getD 0`) plus the `panel<i>` string entries that are
present. -/
structure PanelsDict where
  numPanels : Option Nat
  entries : List (Nat × String)
deriving DecidableEq, Repr

/-- Lookup of the `panel<i>` key in a panel dictionary
(`panel_urls.get(f"panel{i}")`). -/
def panelsGet (p : PanelsDict) (i : Nat) : Option String :=
  (p.entries.find? (fun e => e.1 == i)).map (fun e => e.2)

/-- Values a comic-data dict can hold: strings, ints, booleans, `None`,
a `datetime` (year, month, day) and a nested panel dictionary. -/
inductive PyVal where
  | vStr (s : String)
  | vInt (n : Int)
  | vBool (b : Bool)
  | vNone
  | vDate (y m d : Nat)
  | vPanels (p : PanelsDict)
deriving DecidableEq, Repr

/-- The serialized `panel<i>` fields of a panel dictionary. -/
def dumpsPanelsEntries : List (Nat × String) → String
  | [] => ""
  | (i, u) :: rest =>
    ",\x22panel" ++ toString i ++ "\x22:\x22" ++ u ++ "\x22" ++ dumpsPanelsEntries rest

/-- Model of `json.dumps` on a panel dictionary (the exact rendering is
irrelevant to the claims; what matters is that the same dictionary always
serializes to the same string). -/
def dumpsPanels (p : PanelsDict) : String :=
  "\x7b\x22num_panels\x22:" ++
    (match p.numPanels with | some n => toString n | none => "absent") ++
    dumpsPanelsEntries p.entries ++ "\x7d"

/-- Model of `json.dumps` on a comic-data dict value. -/
def pyJsonDumps : PyVal → String
  | .vStr s => "\x22" ++ s ++ "\x22"
  | .vInt n => toString n
  | .vBool b => if b then "true" else "false"
  | .vNone => "null"
  | .vDate y m d => "\x22" ++ toString y ++ "-" ++ toString m ++ "-" ++ toString d ++ "\x22"
  | .vPanels p => dumpsPanels p

/-- The `comic_data` dict assembled by `extract_comic_metadata`
(lines 73-78 of `scraper/main.py`), viewed as a typed record. -/
structure ComicData where
  title : String
  url : String
  publication_date : Option (Nat × Nat × Nat)
  panel_urls : PanelsDict
deriving DecidableEq, Repr

/-- One row of the `comics` table: auto-assigned identity, title, URL
(unique), nullable publication date, serialized panel locations,
nullable serialized text payload and the processed flag. -/
structure ComicRow where
  id : Int
  title : String
  url : String
  publication_date : Option (Nat × Nat × Nat)
  panel_urls : String
  text : Option String
  processed : Bool
deriving DecidableEq, Repr

/-- The comics table plus the sequence backing the auto-assigned id. -/
structure ComicsDB where
  rows : List ComicRow
  nextId : Int
deriving DecidableEq, Repr

/-- The `ON CONFLICT (url)` check: does a row with this URL exist? -/
def urlExists (db : ComicsDB) (u : String) : Bool :=
  db.rows.any (fun r => r.url = u)

/-- Number of rows holding a given URL. -/
def countUrl (db : ComicsDB) (u : String) : Nat :=
  db.rows.countP (fun r => r.url = u)

/-- The three ways `insert_comic` reports its outcome to the log: the
success info line, the `already exists. Skipping insertion.` warning and
the `Failed to insert comic` error (`manager.py` lines 105, 108, 111).
The Python return value is `Optional[int]` and is `None` in the last two
cases; the log line is what distinguishes them. -/
inductive InsertReport where
  | insertedInfo (id : Int)
  | alreadyExistsWarning
  | insertFailedError
deriving DecidableEq, Repr

/-- Shallow embedding of `DatabaseManager.insert_comic` (`manager.py`
lines 88-113) at record granularity.  `fail` is the oracle for a
`psycopg2.Error` raised by the driver: in that case the transaction is
rolled back (no state change), the error is logged and `None` returned.
Otherwise the `INSERT ... ON CONFLICT (url) DO NOTHING RETURNING id`
either appends a fresh row and returns its id, or — when the URL is
already present — changes nothing, `fetchone` yields no row, and the
already-exists warning is logged with `None` returned. -/
def insert_comic (db : ComicsDB) (c : ComicData) (fail : Bool) :
    ComicsDB × Option Int × InsertReport :=
  if fail then (db, none, .insertFailedError)
  else if urlExists db c.url then (db, none, .alreadyExistsWarning)
  else
    ({ rows := db.rows ++
        [{ id := db.nextId, title := c.title, url := c.url,
           publication_date := c.publication_date,
           panel_urls := dumpsPanels c.panel_urls,
           text := none, processed := false }],
       nextId := db.nextId + 1 },
     some db.nextId, .insertedInfo db.nextId)

theorem countUrl_eq_zero_of_not_urlExists {db : ComicsDB} {u : String}
    (h : urlExists db u = false) : countUrl db u = 0 := by
  rw [countUrl, List.countP_eq_zero]
  intro r hr
  simp only [urlExists, List.any_eq_false] at h
  simpa using h r hr

/-- C1: for every issue whose URL already exists in storage,
`insert_comic` leaves the table unchanged (so under arbitrarily many
repeated insert attempts at most one row with a given URL ever exists),
and the already-exists outcome is reported (via the log line)
distinctly from a hard storage failure. -/
theorem insert_comic_url_uniqueness :
    (∀ (db : ComicsDB) (c : ComicData) (fail : Bool),
        urlExists db c.url = true → (insert_comic db c fail).1 = db)
    ∧ (∀ (db : ComicsDB) (c : ComicData),
        urlExists db c.url = true →
          (insert_comic db c false).2.1 = none ∧
          (insert_comic db c false).2.2 = InsertReport.alreadyExistsWarning)
    ∧ (∀ (db : ComicsDB) (c : ComicData),
        (insert_comic db c true).2.2 = InsertReport.insertFailedError)
    ∧ InsertReport.alreadyExistsWarning ≠ InsertReport.insertFailedError
    ∧ (∀ (ops : List (ComicData × Bool)) (db : ComicsDB) (u : String),
        countUrl db u ≤ 1 →
        countUrl (ops.foldl (fun d oc => (insert_comic d oc.1 oc.2).1) db) u ≤ 1) := by
  have hstep : ∀ (db : ComicsDB) (c : ComicData) (fail : Bool) (u : String),
      countUrl db u ≤ 1 → countUrl (insert_comic db c fail).1 u ≤ 1 := by
    intro db c fail u h
    cases fail with
    | true => simpa [insert_comic] using h
    | false =>
      cases hurl : urlExists db c.url with
      | true => simpa [insert_comic, hurl] using h
      | false =>
        have hred : (insert_comic db c false).1.rows =
            db.rows ++
              [{ id := db.nextId, title := c.title, url := c.url,
                 publication_date := c.publication_date,
                 panel_urls := dumpsPanels c.panel_urls,
                 text := none, processed := false }] := by
          simp [insert_comic, hurl]
        simp only [countUrl, hred, List.countP_append] at h ⊢
        by_cases hu : c.url = u
        · have h0 : db.rows.countP (fun r => decide (r.url = u)) = 0 := by
            have h2 := countUrl_eq_zero_of_not_urlExists hurl
            simp only [countUrl] at h2
            rw [← hu]
            exact h2
          rw [h0]
          simp [List.countP_cons, hu]
        · have h1 : List.countP (fun (r : ComicRow) => decide (r.url = u))
              [{ id := db.nextId, title := c.title, url := c.url,
                 publication_date := c.publication_date,
                 panel_urls := dumpsPanels c.panel_urls,
                 text := none, processed := false }] = 0 := by
            simp [List.countP_cons, hu]
          rw [h1]
          simpa using h
  refine ⟨?_, ?_, ?_, by simp, ?_⟩
  · intro db c fail h
    cases fail with
    | true => simp [insert_comic]
    | false => simp [insert_comic, h]
  · intro db c h
    exact ⟨by simp [insert_comic, h], by simp [insert_comic, h]⟩
  · intro db c
    simp [insert_comic]
  · intro ops
    induction ops with
    | nil => intro db u h; simpa using h
    | cons op rest ih =>
      intro db u h
      simpa using ih (insert_comic db op.1 op.2).1 u (hstep db op.1 op.2 u h)

/-- Witness for C1 at a concrete table: inserting a second issue with an
already-present URL leaves the single-row table unchanged and yields the
already-exists warning, not the failure error. -/
theorem insert_comic_url_uniqueness_witness :
    (insert_comic
        ⟨[⟨1, "t", "u", none, "p", none, false⟩], 2⟩
        ⟨"t2", "u", none, ⟨some 0, []⟩⟩ false).1
      = ⟨[⟨1, "t", "u", none, "p", none, false⟩], 2⟩ ∧
    (insert_comic
        ⟨[⟨1, "t", "u", none, "p", none, false⟩], 2⟩
        ⟨"t2", "u", none, ⟨some 0, []⟩⟩ false).2.2
      = InsertReport.alreadyExistsWarning :=
  ⟨insert_comic_url_uniqueness.1 _ _ false (by decide),
   (insert_comic_url_uniqueness.2.1 _ _ (by decide)).2⟩

/- ===================================================================
   Python-object store: dict references, used to express the frame
   behaviour of `insert_comic` on its caller's dict (claim C10).
   =================================================================== -/

/-- Lookup of a key in a Python dict (ordered association list). -/
def dictGet (d : List (String × PyVal)) (k : String) : Option PyVal :=
  (d.find? (fun kv => kv.1 == k)).map (fun kv => kv.2)

/-- Python dict item assignment: overwrite in place if the key exists,
else append. -/
def dictSet : List (String × PyVal) → String → PyVal → List (String × PyVal)
  | [], k, v => [(k, v)]
  | (k', v') :: rest, k, v =>
    if k' = k then (k, v) :: rest else (k', v') :: dictSet rest k v

/-- A heap of Python dict objects; a dict reference is an index. -/
structure Store where
  dicts : List (List (String × PyVal))
deriving DecidableEq, Repr

/-- Dereference a dict (out-of-range references never arise). -/
def Store.getRef (st : Store) (r : Nat) : List (String × PyVal) :=
  (st.dicts.get? r).getD []

/-- Allocate a fresh dict object, returning its reference. -/
def Store.alloc (st : Store) (d : List (String × PyVal)) : Store × Nat :=
  ({ dicts := st.dicts ++ [d] }, st.dicts.length)

/-- Overwrite the dict object behind a reference. -/
def Store.setRef (st : Store) (r : Nat) (d : List (String × PyVal)) : Store :=
  { dicts := st.dicts.set r d }

/-- `DatabaseManager.insert_comic` (`manager.py` lines 88-113) viewed at
Python-object granularity, to express its effect on the caller's dict:
`data_to_insert = comic_data.copy()` (line 96) allocates a fresh dict,
and the `data_to_insert['panel_urls'] = json.dumps(...)` assignment
(line 97) mutates only that fresh dict.  The SQL step reads its
parameters from the copy; field extraction uses benign defaults because
the crawler always passes the full dict shape.  Returns the final store,
the table and the `Optional[int]` result. -/
def insert_comic_objects (st : Store) (comic_data : Nat) (db : ComicsDB)
    (fail : Bool) : Store × ComicsDB × Option Int :=
  let alloc := st.alloc (st.getRef comic_data)
  let st1 := alloc.1
  let data_to_insert := alloc.2
  let pv := (dictGet (st1.getRef data_to_insert) "panel_urls").getD PyVal.vNone
  let st2 := st1.setRef data_to_insert
    (dictSet (st1.getRef data_to_insert) "panel_urls"
      (PyVal.vStr (pyJsonDumps pv)))
  let title := match dictGet (st2.getRef data_to_insert) "title" with
    | some (.vStr s) => s
    | _ => ""
  let url := match dictGet (st2.getRef data_to_insert) "url" with
    | some (.vStr s) => s
    | _ => ""
  let pubDate := match dictGet (st2.getRef data_to_insert) "publication_date" with
    | some (.vDate y m d) => some (y, m, d)
    | _ => none
  let pu := match dictGet (st2.getRef data_to_insert) "panel_urls" with
    | some (.vStr s) => s
    | _ => ""
  let sqlResult : ComicsDB × Option Int :=
    if fail then (db, none)
    else if urlExists db url then (db, none)
    else
      ({ rows := db.rows ++
          [{ id := db.nextId, title := title, url := url,
             publication_date := pubDate, panel_urls := pu,
             text := none, processed := false }],
         nextId := db.nextId + 1 },
       some db.nextId)
  (st2, sqlResult)

/-- C10: `insert_comic` leaves its argument dict unchanged — the JSON
serialization of `panel_urls` is applied to `comic_data.copy()`, so the
caller's dict (including its structured `panel_urls` value) is never
mutated, whatever the insert outcome. -/
theorem insert_comic_objects_frame :
    ∀ (st : Store) (r : Nat) (db : ComicsDB) (fail : Bool),
      r < st.dicts.length →
      (insert_comic_objects st r db fail).1.getRef r = st.getRef r := by
  intro st r db fail hr
  show (Store.setRef ⟨st.dicts ++ [st.getRef r]⟩ st.dicts.length _).getRef r = st.getRef r
  have hne : st.dicts.length ≠ r := Nat.ne_of_gt hr
  simp only [Store.setRef, Store.getRef, ComicsDB.mk.injEq]
  rw [List.get?_set_ne _ _ hne, List.get?_append hr]

/-- Witness for C10: a concrete one-dict store is untouched by a
successful insert. -/
theorem insert_comic_objects_frame_witness :
    (insert_comic_objects
        ⟨[[("title", PyVal.vStr "t"), ("url", PyVal.vStr "u"),
           ("publication_date", PyVal.vNone),
           ("panel_urls", PyVal.vPanels ⟨some 1, [(1, "a.jpg")]⟩)]]⟩
        0 ⟨[], 1⟩ false).1.getRef 0
      = Store.getRef
        ⟨[[("title", PyVal.vStr "t"), ("url", PyVal.vStr "u"),
           ("publication_date", PyVal.vNone),
           ("panel_urls", PyVal.vPanels ⟨some 1, [(1, "a.jpg")]⟩)]]⟩ 0 :=
  insert_comic_objects_frame _ 0 _ false (by decide)

/- ===================================================================
   Scraper: panel extraction (`extract_panel_urls`, `scraper/main.py`
   lines 87-116).
   =================================================================== -/

/-- Python `str.strip()` on a string. -/
def pyStripStr (s : String) : String :=
  ⟨pyStrip s.data⟩

/-- Python `str.split(',')` on a character list: pieces between commas,
keeping empty pieces. -/
def splitOnCommaChars : List Char → List (List Char)
  | [] => [[]]
  | c :: rest =>
    let r := splitOnCommaChars rest
    if c = ',' then [] :: r
    else
      match r with
      | [] => [[c]]
      | piece :: more => (c :: piece) :: more

/-- Python `str.split()` with no argument on a character list: the
maximal non-whitespace runs, in order. -/
def pySplitWsList : List Char → List (List Char)
  | [] => []
  | c :: rest =>
    let r := pySplitWsList rest
    if isPySpace c then r
    else
      match rest with
      | [] => [[c]]
      | d :: _ =>
        if isPySpace d then [c] :: r
        else
          match r with
          | piece :: more => (c :: piece) :: more
          | [] => [[c]]

/-- Python `str.split()` with no argument on a string. -/
def pySplitWsStr (s : String) : List String :=
  (pySplitWsList s.data).map (fun w => (⟨w⟩ : String))

/-- An `img` element as seen by the extractor: its optional `srcset`
and `src` attributes. -/
structure ImgTag where
  srcset : Option String
  src : Option String
deriving DecidableEq, Repr

/-- A `div.comic-panel` element: `panel.find('img')` yields at most one
image element. -/
structure PanelDiv where
  img : Option ImgTag
deriving DecidableEq, Repr

/-- The srcset scan of lines 102-107: split the attribute on commas,
strip and whitespace-split each entry, and take the first entry of shape
`[url, "2x"]`; empty string if none. -/
def srcset2x (srcset : String) : String :=
  let sources := (splitOnCommaChars srcset.data).map
    (fun s => pySplitWsStr (pyStripStr ⟨s⟩))
  match sources.find? (fun src => src.length == 2 && src.get? 1 == some "2x") with
  | some src => src.headD ""
  | none => ""

/-- The per-panel URL resolution of lines 100-111: prefer the srcset 2x
entry; if that yields nothing and a plain `src` attribute exists, fall
back to it; otherwise the empty string. -/
def resolvePanelUrl (img : ImgTag) : String :=
  let fromSrcset :=
    match img.srcset with
    | some ss => srcset2x ss
    | none => ""
  if fromSrcset ≠ "" then fromSrcset
  else
    match img.src with
    | some s => s
    | none => fromSrcset

/-- The enumeration loop of lines 95-114: `i` is the 0-based enumeration
index; a panel without an image element is skipped (`continue`), and a
resolved URL is recorded under key `panel<i+1>` only when it is
non-empty. -/
def collectPanels : Nat → List PanelDiv → List (Nat × String)
  | _, [] => []
  | i, p :: rest =>
    let tail := collectPanels (i + 1) rest
    match p.img with
    | none => tail
    | some img =>
      let u := resolvePanelUrl img
      if u = "" then tail else (i + 1, u) :: tail

/-- Shallow embedding of `extract_panel_urls` (`scraper/main.py` lines
87-116).  The input is the parsed view of the document: `none` when no
`div.comic-area` container exists, otherwise the list of
`div.comic-panel` elements found inside it.  `num_panels` is always set;
`panel<i>` keys are set only for resolved, non-empty URLs. -/
def extract_panel_urls (comic_area : Option (List PanelDiv)) : PanelsDict :=
  match comic_area with
  | none => { numPanels := some 0, entries := [] }
  | some panels =>
    { numPanels := some panels.length, entries := collectPanels 0 panels }

theorem collectPanels_lookup_le : ∀ (ps : List PanelDiv) (base k : Nat), k ≤ base →
    (collectPanels base ps).find? (fun e => e.1 == k) = none
  | [], _, _, _ => rfl
  | ⟨pimg⟩ :: rest, base, k, hk => by
    have ih := collectPanels_lookup_le rest (base + 1) k (Nat.le_succ_of_le hk)
    cases pimg with
    | none => simpa only [collectPanels] using ih
    | some img =>
      by_cases hu : resolvePanelUrl img = ""
      · simpa only [collectPanels, hu, if_pos rfl] using ih
      · simp only [collectPanels, if_neg hu]
        rw [List.find?_cons_of_neg]
        · exact ih
        · simp
          omega

theorem collectPanels_lookup : ∀ (ps : List PanelDiv) (base i : Nat)
    (h : i < ps.length),
    (collectPanels base ps).find? (fun e => e.1 == base + i + 1)
      = (match (ps.get ⟨i, h⟩).img with
         | none => none
         | some img =>
           if resolvePanelUrl img = "" then none
           else some (base + i + 1, resolvePanelUrl img))
  | [], _, i, h => absurd h (by simp)
  | ⟨pimg⟩ :: rest, base, 0, _ => by
    cases pimg with
    | none =>
      simpa only [collectPanels, List.get] using
        collectPanels_lookup_le rest (base + 1) (base + 0 + 1) (by omega)
    | some img =>
      by_cases hu : resolvePanelUrl img = ""
      · simpa only [collectPanels, List.get, hu, if_pos rfl] using
          collectPanels_lookup_le rest (base + 1) (base + 0 + 1) (by omega)
      · simp only [collectPanels, List.get, if_neg hu]
        rw [List.find?_cons_of_pos]
        all_goals simp [hu]
  | ⟨pimg⟩ :: rest, base, i + 1, h => by
    have hlen : i < rest.length := by
      simpa using Nat.lt_of_succ_lt_succ h
    have ih := collectPanels_lookup rest (base + 1) i hlen
    have hkey : base + (i + 1) + 1 = base + 1 + i + 1 := by omega
    cases pimg with
    | none => simpa only [collectPanels, List.get, hkey] using ih
    | some img =>
      by_cases hu : resolvePanelUrl img = ""
      · simpa only [collectPanels, List.get, hkey, hu, if_pos rfl] using ih
      · simp only [collectPanels, List.get, hkey, if_neg hu]
        rw [List.find?_cons_of_neg]
        · exact ih
        · simp
          omega

/-- C2, counterexample: a panel container with no image element is
counted in `num_panels` but its index is omitted from the mapping — the
`panel1` key is absent, not mapped to the empty string. -/
theorem extract_panel_urls_omits_unresolved :
    (extract_panel_urls (some [⟨none⟩])).numPanels = some 1 ∧
    panelsGet (extract_panel_urls (some [⟨none⟩])) 1 = none ∧
    panelsGet (extract_panel_urls (some [⟨none⟩])) 1 ≠ some "" := by
  refine ⟨rfl, rfl, by decide⟩

/-- C2 (amended): `extract_panel_urls` sets `num_panels` to the number
of panel containers found (0 when the comic-area container is absent),
and for each index `i` in `1..num_panels` the entry is the srcset URL
tagged `2x` when one exists, otherwise the image's plain `src`
attribute; when neither yields a non-empty URL (including a container
with no image element) the index is omitted from the mapping — it is not
recorded as an empty string, so the mapping's keys can have gaps even
though `num_panels` counts every container. -/
theorem extract_panel_urls_contract :
    ((extract_panel_urls none).numPanels = some 0)
    ∧ (∀ panels, (extract_panel_urls (some panels)).numPanels
        = some panels.length)
    ∧ (∀ (panels : List PanelDiv) (i : Nat) (h : i < panels.length),
        panelsGet (extract_panel_urls (some panels)) (i + 1)
          = match (panels.get ⟨i, h⟩).img with
            | none => none
            | some img =>
              if resolvePanelUrl img = "" then none
              else some (resolvePanelUrl img))
    ∧ resolvePanelUrl ⟨some "u1.jpg 1x,u2.jpg 2x", some "u1.jpg"⟩ = "u2.jpg"
    ∧ resolvePanelUrl ⟨none, some "u1.jpg"⟩ = "u1.jpg"
    ∧ resolvePanelUrl ⟨none, none⟩ = "" := by
  refine ⟨rfl, fun panels => rfl, ?_, by decide, by decide, by decide⟩
  intro panels i h
  have hkey : i + 1 = 0 + i + 1 := by omega
  rw [panelsGet, extract_panel_urls, hkey, collectPanels_lookup panels 0 i h]
  cases (panels.get ⟨i, h⟩).img with
  | none => rfl
  | some img =>
    by_cases hu : resolvePanelUrl img = ""
    · simp [hu]
    · simp [hu]

/-- Witness for the amended C2: the lookup characterization applied to a
concrete one-panel document without a srcset attribute. -/
theorem extract_panel_urls_contract_witness :
    panelsGet (extract_panel_urls (some [⟨some ⟨none, some "b.jpg"⟩⟩])) 1
      = some "b.jpg" := by
  rw [extract_panel_urls_contract.2.2.1 [⟨some ⟨none, some "b.jpg"⟩⟩] 0
    (by decide)]
  decide

/- ===================================================================
   Scraper: crawl cursor resolution (`get_next_comic_url`,
   `scraper/main.py` lines 118-143, with `fetch_comic_page` lines
   44-52).
   =================================================================== -/

/-- The parsed view of a fetched comic page as `get_next_comic_url`
inspects it: the `href` of the `a.orange-btn.newer` element, `none` when
the element is absent or lacks the attribute. -/
structure NextPage where
  newerHref : Option String
deriving DecidableEq, Repr

/-- What `fetch_comic_page` hands back for a URL: the page on success,
or `failed` when the request raised (the function then logs the error
and returns `None`; a falsy empty body is treated the same way by the
caller's `if not html` check). -/
inductive FetchResult where
  | ok (page : NextPage)
  | failed
deriving DecidableEq, Repr

/-- A stored comic row as `get_next_comic_url` reads it:
`most_recent_comic.get('url')` may be absent. -/
structure StoredComic where
  url : Option String
deriving DecidableEq, Repr

/-- The hard-coded bootstrap URL of line 141. -/
def firstComicUrl : String :=
  "https://www.penny-arcade.com/comic/1998/11/18/the-sin-of-long-load-times"

/-- Shallow embedding of `get_next_comic_url` (lines 118-143).  `fetch`
is the oracle for `fetch_comic_page`.  With no stored comic the
bootstrap URL is returned; with a stored comic the page is fetched and
the newer-navigation href, resolved against the base URL, is returned;
every failure branch — missing or empty stored URL, fetch failure, no
newer link — returns `None`. -/
def get_next_comic_url (base_url : String) (fetch : String → FetchResult)
    (most_recent : Option StoredComic) : Option String :=
  match most_recent with
  | none => some firstComicUrl
  | some comic =>
    match comic.url with
    | none => none
    | some latest_comic_url =>
      if latest_comic_url = "" then none
      else
        match fetch latest_comic_url with
        | .failed => none
        | .ok page =>
          match page.newerHref with
          | none => none
          | some next_comic_path => some (base_url ++ next_comic_path)

/-- C3, counterexample: with a most-recently-stored issue present, a
fetch failure and a successfully fetched page without a newer link
produce the very same result (`none`), so callers cannot distinguish a
network error from having caught up. -/
theorem get_next_comic_url_failure_indistinguishable :
    get_next_comic_url "https://www.penny-arcade.com"
        (fun _ => FetchResult.failed) (some ⟨some "https://x"⟩)
      = get_next_comic_url "https://www.penny-arcade.com"
        (fun _ => FetchResult.ok ⟨none⟩) (some ⟨some "https://x"⟩) := by
  rfl

/-- C3 (amended): when a most-recently-stored issue exists and fetching
its page fails, `get_next_comic_url` returns `None` — the same value it
returns when the fetched page has no newer-navigation link — so the two
outcomes are distinguished only in the log output, not in the value
callers receive.  With no stored issue the bootstrap URL is returned,
and a present newer link resolves against the base URL. -/
theorem get_next_comic_url_behavior :
    (∀ (base : String) (fetch : String → FetchResult),
        get_next_comic_url base fetch none = some firstComicUrl)
    ∧ (∀ (base u : String) (fetch : String → FetchResult),
        u ≠ "" → fetch u = .failed →
        get_next_comic_url base fetch (some ⟨some u⟩) = none)
    ∧ (∀ (base u : String) (fetch : String → FetchResult),
        u ≠ "" → fetch u = .ok ⟨none⟩ →
        get_next_comic_url base fetch (some ⟨some u⟩) = none)
    ∧ (∀ (base u path : String) (fetch : String → FetchResult),
        u ≠ "" → fetch u = .ok ⟨some path⟩ →
        get_next_comic_url base fetch (some ⟨some u⟩)
          = some (base ++ path)) := by
  refine ⟨fun base fetch => rfl, ?_, ?_, ?_⟩
  · intro base u fetch hu hf
    simp [get_next_comic_url, hu, hf]
  · intro base u fetch hu hf
    simp [get_next_comic_url, hu, hf]
  · intro base u path fetch hu hf
    simp [get_next_comic_url, hu, hf]

/-- Witness for the amended C3: concrete fetch oracles for the failure
and the resolved-link branches. -/
theorem get_next_comic_url_behavior_witness :
    get_next_comic_url "https://www.penny-arcade.com"
        (fun _ => FetchResult.failed) (some ⟨some "https://x"⟩) = none
    ∧ get_next_comic_url "https://www.penny-arcade.com"
        (fun _ => FetchResult.ok ⟨some "/comic/next"⟩)
        (some ⟨some "https://x"⟩)
      = some "https://www.penny-arcade.com/comic/next" :=
  ⟨get_next_comic_url_behavior.2.1 "https://www.penny-arcade.com" "https://x"
      (fun _ => FetchResult.failed) (by decide) rfl,
   get_next_comic_url_behavior.2.2.2 "https://www.penny-arcade.com"
      "https://x" "/comic/next"
      (fun _ => FetchResult.ok ⟨some "/comic/next"⟩) (by decide) rfl⟩

/- ===================================================================
   Cycle orchestrator (`run_scraping_cycle`, `scraper/main.py` lines
   282-307, and `main`, lines 310-329).
   =================================================================== -/

/-- The outcome of one execution of the body of `run_scraping_cycle`'s
`try` block (connect, then up to two resolve/fetch/extract/insert
steps): either it runs to completion (possibly via the early `return`
when no next comic exists), or some unhandled exception is raised
inside it. -/
inductive CycleOutcome where
  | completes
  | fails (msg : String)
deriving DecidableEq, Repr

/-- What a call of `run_scraping_cycle` does, as observed by its
caller: the exception it lets escape (if any), the error log lines it
emits, and whether the `finally` clause returned the storage connection.
-/
structure CycleResult where
  raised : Option String
  errorLog : List String
  dbDisconnected : Bool
deriving DecidableEq, Repr

/-- Shallow embedding of `run_scraping_cycle` (lines 282-307): the
`except Exception` clause logs the failure and then **re-raises it**
(`raise`, line 305); the `finally` clause always disconnects.  A
completed body raises nothing. -/
def run_scraping_cycle (o : CycleOutcome) : CycleResult :=
  match o with
  | .completes => { raised := none, errorLog := [], dbDisconnected := true }
  | .fails m =>
    { raised := some ("Error during scraping cycle: " ++ m),
      errorLog := ["Error during scraping cycle: " ++ m],
      dbDisconnected := true }

/-- Shallow embedding of the `while True` loop of `main` (lines
326-329) run against a schedule of cycle-body outcomes: the loop calls
`run_scraping_cycle` with no exception handler, so a raised exception
escapes `main` and the process dies.  Returns the number of cycles that
started and whether the process crashed. -/
def mainLoop : List CycleOutcome → Nat × Bool
  | [] => (0, false)
  | o :: rest =>
    match (run_scraping_cycle o).raised with
    | none =>
      let r := mainLoop rest
      (r.1 + 1, r.2)
    | some _ => (1, true)

/-- C5, counterexample: a schedule whose first cycle fails is followed
by a scheduled cycle that never runs — `main` has no handler around
`run_scraping_cycle`, which re-raises after logging, so the process
crashes instead of returning to Idle. -/
theorem mainLoop_crashes_on_failure :
    mainLoop [CycleOutcome.fails "boom", CycleOutcome.completes]
      = (1, true) ∧ ¬ (1 : Nat) = 2 := by
  exact ⟨rfl, by decide⟩

/-- C5 (amended): an unhandled failure inside a crawl cycle is logged
and the storage connection is released by the `finally` clause, but
`run_scraping_cycle` re-raises the exception and `main`'s loop does not
catch it — the process crashes and no later scheduled cycle runs;
failure-free schedules run every cycle. -/
theorem run_scraping_cycle_failure_propagates :
    (∀ m : String,
        (run_scraping_cycle (.fails m)).errorLog
            = ["Error during scraping cycle: " ++ m]
        ∧ (run_scraping_cycle (.fails m)).dbDisconnected = true
        ∧ (run_scraping_cycle (.fails m)).raised
            = some ("Error during scraping cycle: " ++ m))
    ∧ (∀ (m : String) (rest : List CycleOutcome),
        mainLoop (.fails m :: rest) = (1, true))
    ∧ (∀ n : Nat, mainLoop (List.replicate n .completes) = (n, false)) := by
  refine ⟨fun m => ⟨rfl, rfl, rfl⟩, fun m rest => rfl, ?_⟩
  intro n
  induction n with
  | zero => rfl
  | succ k ih => simp [List.replicate, mainLoop, run_scraping_cycle, ih]

/- ===================================================================
   Scraper: metadata extraction (`extract_comic_metadata`,
   `scraper/main.py` lines 54-85) and the `datetime.strptime`
   format `'%B %d, %Y'`.
   =================================================================== -/

/-- Full month names recognized by the `%B` directive. -/
def monthNames : List (String × Nat) :=
  [("january", 1), ("february", 2), ("march", 3), ("april", 4),
   ("may", 5), ("june", 6), ("july", 7), ("august", 8),
   ("september", 9), ("october", 10), ("november", 11), ("december", 12)]

/-- Numeric value of a digit character. -/
def digitVal (c : Char) : Nat := c.toNat - Char.toNat '0'

/-- The `%d` directive: one or two digits forming a value 1..31 (the
regex alternatives `3[01]|[12]\d|0[1-9]|[1-9]`); where Python would
backtrack to a shorter match, the following literal `','` fails either
way, so the greedy two-digit-first reading is equivalent. -/
def parseDay : List Char → Option (Nat × List Char)
  | d1 :: d2 :: rest =>
    if d1.isDigit && d2.isDigit then
      let v := digitVal d1 * 10 + digitVal d2
      if 1 ≤ v ∧ v ≤ 31 then some (v, rest) else none
    else if d1.isDigit && decide (1 ≤ digitVal d1) then
      some (digitVal d1, d2 :: rest)
    else none
  | [d1] =>
    if d1.isDigit && decide (1 ≤ digitVal d1) then some (digitVal d1, [])
    else none
  | [] => none

/-- The `%Y` directive: exactly four digits. -/
def parseYear4 : List Char → Option (Nat × List Char)
  | a :: b :: c :: d :: rest =>
    if a.isDigit && b.isDigit && c.isDigit && d.isDigit then
      some (digitVal a * 1000 + digitVal b * 100 + digitVal c * 10 + digitVal d,
        rest)
    else none
  | _ => none

/-- Gregorian leap-year rule used by `datetime`'s day validation. -/
def isLeapYear (y : Nat) : Bool :=
  (y % 4 == 0 && !(y % 100 == 0)) || y % 400 == 0

/-- Days in a month, for `datetime`'s day validation. -/
def daysInMonth (y m : Nat) : Nat :=
  if m = 2 then (if isLeapYear y then 29 else 28)
  else if m = 4 ∨ m = 6 ∨ m = 9 ∨ m = 11 then 30
  else 31

/-- Model of `datetime.strptime(s, '%B %d, %Y')`: a full month name
(case-insensitive), one-or-more whitespace, a 1-2 digit day, a literal
comma, one-or-more whitespace, a four-digit year, end of input; the
resulting date must be valid (day within the month, year at least 1).
Returns `(year, month, day)`, or `none` where Python raises
`ValueError`. -/
def pyStrptimeBdY (s : String) : Option (Nat × Nat × Nat) :=
  match monthNames.findSome? (fun mn =>
      (stripLitCI mn.1.data s.data).map (fun r => (mn.2, r))) with
  | none => none
  | some (m, r1) =>
    match r1 with
    | [] => none
    | c :: _ =>
      if isPySpace c then
        match parseDay (r1.dropWhile isPySpace) with
        | none => none
        | some (d, r2) =>
          match r2 with
          | ',' :: r3 =>
            (match r3 with
             | [] => none
             | c2 :: _ =>
               if isPySpace c2 then
                 match parseYear4 (r3.dropWhile isPySpace) with
                 | some (y, []) =>
                   if 1 ≤ y ∧ 1 ≤ d ∧ d ≤ daysInMonth y m then some (y, m, d)
                   else none
                 | _ => none
               else none)
          | _ => none
      else none

/-- Python `str.endswith` on the character-list view. -/
def strEndsWith (s suffix : String) : Bool :=
  decide (suffix.data.length ≤ s.data.length) &&
    s.data.drop (s.data.length - suffix.data.length) == suffix.data

/-- Python `s[:-n]` for `n ≤ len(s)` on the character-list view. -/
def strDropRight (s : String) (n : Nat) : String :=
  ⟨s.data.take (s.data.length - n)⟩

/-- The parsed view of a comic page as `extract_comic_metadata` reads
it: the text of the `title` element, the text of the `p.details.date`
element, and the comic-area container with its panel divs. -/
structure PageDoc where
  titleText : Option String
  dateText : Option String
  comic_area : Option (List PanelDiv)
deriving DecidableEq, Repr

/-- The title computation of lines 58-65: strip, then drop the
`" - Penny Arcade"` suffix when present (stripping again), with
`"Untitled"` for a missing title element. -/
def extractTitle (tt : Option String) : String :=
  let title_text :=
    match tt with
    | some t => pyStripStr t
    | none => "Untitled"
  let suffix := " - Penny Arcade"
  if strEndsWith title_text suffix = true
  then pyStripStr (strDropRight title_text suffix.data.length)
  else title_text

/-- Shallow embedding of `extract_comic_metadata` (lines 54-85): the
title falls back to `"Untitled"` and drops the site-name suffix; a
missing date element — or one whose stripped text is empty — yields a
null date; a non-empty date string is parsed with
`strptime('%B %d, %Y')`, whose `ValueError` is caught only by the
function-wide `except`, making the whole extraction return `None`. -/
def extract_comic_metadata (doc : PageDoc) (url : String) : Option ComicData :=
  let title := extractTitle doc.titleText
  let panels := extract_panel_urls doc.comic_area
  match doc.dateText with
  | none =>
    some { title := title, url := url, publication_date := none,
           panel_urls := panels }
  | some dt =>
    let date_str := pyStripStr dt
    if date_str = "" then
      some { title := title, url := url, publication_date := none,
             panel_urls := panels }
    else
      match pyStrptimeBdY date_str with
      | none => none
      | some ymd =>
        some { title := title, url := url, publication_date := some ymd,
               panel_urls := panels }

/-- C6, counterexample: a document whose date-label text is present but
does not match `'%B %d, %Y'` makes the whole extraction fail —
`extract_comic_metadata` returns `None` rather than an issue record
with a null publication date, because `strptime`'s `ValueError` is
caught only by the function-wide handler. -/
theorem extract_comic_metadata_fails_on_bad_date :
    extract_comic_metadata ⟨some "T", some "not a date", none⟩ "u" = none := by
  rfl

/-- C6 (amended): when the date-label element is absent — or its text
strips to the empty string — `extract_comic_metadata` still returns an
issue record with a null publication date; but when non-empty date text
fails to parse, the `ValueError` reaches the function-wide handler and
the whole extraction returns `None`; parseable text yields the parsed
date. -/
theorem extract_comic_metadata_date_contract :
    (∀ (tt : Option String) (ca : Option (List PanelDiv)) (url : String),
        ∃ c, extract_comic_metadata ⟨tt, none, ca⟩ url = some c
          ∧ c.publication_date = none)
    ∧ (∀ (tt : Option String) (ca : Option (List PanelDiv)) (url ds : String),
        pyStripStr ds = "" →
        ∃ c, extract_comic_metadata ⟨tt, some ds, ca⟩ url = some c
          ∧ c.publication_date = none)
    ∧ (∀ (tt : Option String) (ca : Option (List PanelDiv)) (url ds : String),
        pyStripStr ds ≠ "" → pyStrptimeBdY (pyStripStr ds) = none →
        extract_comic_metadata ⟨tt, some ds, ca⟩ url = none)
    ∧ (∀ (tt : Option String) (ca : Option (List PanelDiv)) (url ds : String)
        (ymd : Nat × Nat × Nat),
        pyStrptimeBdY (pyStripStr ds) = some ymd →
        ∃ c, extract_comic_metadata ⟨tt, some ds, ca⟩ url = some c
          ∧ c.publication_date = some ymd) := by
  refine ⟨?_, ?_, ?_, ?_⟩
  · intro tt ca url
    exact ⟨_, rfl, rfl⟩
  · intro tt ca url ds hds
    refine ⟨⟨extractTitle tt, url, none, extract_panel_urls ca⟩, ?_, rfl⟩
    simp only [extract_comic_metadata, hds]
    simp
  · intro tt ca url ds hne hparse
    simp only [extract_comic_metadata, if_neg hne, hparse]
  · intro tt ca url ds ymd hparse
    have hne : ¬ pyStripStr ds = "" := by
      intro he
      rw [he] at hparse
      have h0 : pyStrptimeBdY "" = none := by decide
      rw [h0] at hparse
      exact Option.noConfusion hparse
    refine ⟨⟨extractTitle tt, url, some ymd, extract_panel_urls ca⟩, ?_, rfl⟩
    simp only [extract_comic_metadata, if_neg hne, hparse]

/-- Witness for the amended C6: a concrete document without a date
element yields a record with a null date, and one with unparseable date
text makes the extraction fail. -/
theorem extract_comic_metadata_date_contract_witness :
    (∃ c, extract_comic_metadata ⟨some "T", none, none⟩ "u" = some c
        ∧ c.publication_date = none)
    ∧ extract_comic_metadata ⟨some "T", some "nonsense", none⟩ "u" = none :=
  ⟨extract_comic_metadata_date_contract.1 (some "T") none "u",
   extract_comic_metadata_date_contract.2.2.1 (some "T") none "u" "nonsense"
     (by decide) (by decide)⟩

/- ===================================================================
   Analyzer (`analyzer/main.py`): `update_comic` (`manager.py` lines
   115-147), `process_comic_panels` (lines 72-98), `analyze_comic`
   (lines 100-134) and the queue consumer `callback` (lines 172-192).
   =================================================================== -/

/-- The `updates` dict passed by `analyze_comic`: the `text` payload (a
dict, so `update_comic` serializes it with `json.dumps`) and the
`processed` flag.  Both keys are in `update_comic`'s recognized-field
whitelist, so the set-clause list is never empty for this payload. -/
structure ComicUpdates where
  text : PanelsDict
  processed : Bool
deriving DecidableEq, Repr

/-- Shallow embedding of `DatabaseManager.update_comic` (`manager.py`
lines 115-147) applied to the analyzer's payload: the UPDATE sets both
recognized fields on the row whose `id` equals `comic_id` and commits;
`rowcount > 0` — some row matched — decides the Boolean result.  A
driver error (the `fail` oracle) rolls back and returns `False`.
`comic_id` is `Option Int` because the message's `comic_id` field may
be absent (`None` matches no row). -/
def update_comic (db : ComicsDB) (comic_id : Option Int)
    (updates : ComicUpdates) (fail : Bool) : ComicsDB × Bool :=
  if fail then (db, false)
  else
    let matched := db.rows.any (fun r => some r.id == comic_id)
    let newRows := db.rows.map (fun r =>
      if some r.id == comic_id then
        { r with text := some (dumpsPanels updates.text),
                 processed := updates.processed }
      else r)
    ({ db with rows := newRows }, matched)

/-- The per-index body of `process_comic_panels`' loop (lines 77-96): a
missing or falsy-empty `panel<i>` URL yields empty text; a failed
download (`download` oracle returns `none`) yields empty text;
otherwise the downloaded image is OCRed (`ocr` models
`extract_text_from_image`, lines 39-51: grayscale conversion,
`pytesseract`, strip, exception-to-empty) and the boilerplate filter is
applied. -/
def panelText {Img : Type} (download : String → Option Img)
    (ocr : Img → String) (panel_urls : PanelsDict) (i : Nat) : String :=
  match panelsGet panel_urls i with
  | none => ""
  | some panel_url =>
    if panel_url = "" then ""
    else
      match download panel_url with
      | none => ""
      | some image => filter_copyright_text (ocr image)

/-- Shallow embedding of `process_comic_panels` (lines 72-98): the
result dict holds `num_panels` (defaulted to 0 when the key is absent)
and one `panel<i>` entry for every `i` in `1..num_panels`. -/
def process_comic_panels {Img : Type} (download : String → Option Img)
    (ocr : Img → String) (panel_urls : PanelsDict) : PanelsDict :=
  let num_panels := panel_urls.numPanels.getD 0
  { numPanels := some num_panels,
    entries := (List.range' 1 num_panels).map
      (fun i => (i, panelText download ocr panel_urls i)) }

/-- The `panel_urls` field of an enrichment message: a structured
object, a JSON-encoded string, or absent (`.get("panel_urls", {})`
defaults to the empty dict). -/
inductive PanelField where
  | obj (p : PanelsDict)
  | strv (s : String)
  | absent
deriving DecidableEq, Repr

/-- An enrichment message as `analyze_comic` reads it: `comic_id` (may
be absent), `title` (used only for logging) and `panel_urls`. -/
structure EnrichMessage where
  comic_id : Option Int
  title : String
  panel_urls : PanelField
deriving DecidableEq, Repr

/-- Shallow embedding of `analyze_comic` (lines 100-134): a string
`panel_urls` is decoded with `json.loads` (the `jsonParse` oracle); a
decode failure returns `False` immediately.  Otherwise the panels are
processed and the text payload plus `processed = True` are written via
`update_comic`; the Boolean result is the update's success. -/
def analyze_comic {Img : Type} (jsonParse : String → Option PanelsDict)
    (download : String → Option Img) (ocr : Img → String)
    (db : ComicsDB) (msg : EnrichMessage) (updFail : Bool) :
    ComicsDB × Bool :=
  let core : PanelsDict → ComicsDB × Bool := fun panel_urls =>
    let text_data := process_comic_panels download ocr panel_urls
    update_comic db msg.comic_id ⟨text_data, true⟩ updFail
  match msg.panel_urls with
  | .strv s =>
    (match jsonParse s with
     | none => (db, false)
     | some p => core p)
  | .obj p => core p
  | .absent => core ⟨none, []⟩

/-- What the consumer callback does with a delivery. -/
inductive AckAction where
  | ack
  | nackRequeue
deriving DecidableEq, Repr

/-- Shallow embedding of the queue consumer `callback`
(`analyzer/main.py` lines 172-192): an unparseable message body
(`json.loads` raises `JSONDecodeError`; `msgParse = none`) is
acknowledged anyway — the poison message is dropped; a parsed message
is analyzed, then acknowledged on success and negatively acknowledged
with requeue on failure. -/
def callback {Img : Type} (jsonParse : String → Option PanelsDict)
    (download : String → Option Img) (ocr : Img → String)
    (msgParse : Option EnrichMessage) (db : ComicsDB) (updFail : Bool) :
    ComicsDB × AckAction :=
  match msgParse with
  | none => (db, .ack)
  | some message_data =>
    let r := analyze_comic jsonParse download ocr db message_data updFail
    if r.2 then (r.1, .ack) else (r.1, .nackRequeue)

theorem find_range_map (f : Nat → String) :
    ∀ (n s i : Nat), s ≤ i → i < s + n →
    ((List.range' s n).map (fun j => (j, f j))).find? (fun e => e.1 == i)
      = some (i, f i)
  | 0, _, _, _, h2 => absurd h2 (by omega)
  | n + 1, s, i, h1, h2 => by
    rw [List.range'_succ, List.map_cons]
    by_cases hsi : s = i
    · subst hsi
      rw [List.find?_cons_of_pos]
      all_goals simp
    · rw [List.find?_cons_of_neg]
      · exact find_range_map f n (s + 1) i (by omega) (by omega)
      · simp [hsi]

theorem update_rows_id {cid : Option Int} (u : ComicUpdates) :
    ∀ (rows : List ComicRow),
      rows.any (fun r => some r.id == cid) = false →
      rows.map (fun r =>
          if some r.id == cid then
            { r with text := some (dumpsPanels u.text),
                     processed := u.processed }
          else r) = rows
  | [], _ => rfl
  | r :: rest, h => by
    simp only [List.any_cons, Bool.or_eq_false_iff] at h
    simp only [List.map_cons, h.1, Bool.false_eq_true, if_false]
    rw [update_rows_id u rest h.2]

theorem update_comic_spec (db : ComicsDB) (cid : Option Int)
    (u : ComicUpdates) (fail : Bool) :
    ((update_comic db cid u fail).2 = true →
      ∀ r, r ∈ (update_comic db cid u fail).1.rows → some r.id = cid →
        r.processed = u.processed)
    ∧ ((update_comic db cid u fail).2 = false →
      (update_comic db cid u fail).1 = db) := by
  cases fail with
  | true =>
    constructor
    · intro hsucc
      simp [update_comic] at hsucc
    · intro _
      rfl
  | false =>
    constructor
    · intro _ r hr hid
      simp only [update_comic, if_neg (by simp : ¬ (false = true))] at hr
      rcases List.mem_map.mp hr with ⟨r0, _, heq⟩
      by_cases hc : (some r0.id == cid) = true
      · rw [if_pos hc] at heq
        rw [← heq]
      · rw [if_neg hc] at heq
        subst heq
        exact absurd (by simp [hid]) hc
    · intro hfail
      simp only [update_comic, if_neg (by simp : ¬ (false = true))] at hfail ⊢
      rw [update_rows_id u db.rows hfail]

/-- C8: `process_comic_panels` returns a payload whose `num_panels`
equals the incoming count `N` and which has a string entry for every
index `1..N`; an empty or missing panel URL and a failed image download
each yield empty text for that index without failing; and
`analyze_comic`'s storage update sets the processed flag to true exactly
on the rows it matches when it succeeds, while a failed update leaves
storage unchanged. -/
theorem process_comic_panels_contract :
    (∀ {Img : Type} (download : String → Option Img) (ocr : Img → String)
        (p : PanelsDict),
        (process_comic_panels download ocr p).numPanels
            = some (p.numPanels.getD 0)
        ∧ (∀ i : Nat, 1 ≤ i → i ≤ p.numPanels.getD 0 →
            panelsGet (process_comic_panels download ocr p) i
              = some (panelText download ocr p i))
        ∧ (∀ i : Nat, panelsGet p i = none ∨ panelsGet p i = some "" →
            panelText download ocr p i = "")
        ∧ (∀ (i : Nat) (url : String), panelsGet p i = some url → url ≠ "" →
            download url = none → panelText download ocr p i = ""))
    ∧ (∀ {Img : Type} (jsonParse : String → Option PanelsDict)
        (download : String → Option Img) (ocr : Img → String)
        (db : ComicsDB) (msg : EnrichMessage) (updFail : Bool),
        ((analyze_comic jsonParse download ocr db msg updFail).2 = true →
          ∀ r, r ∈ (analyze_comic jsonParse download ocr db msg updFail).1.rows →
            some r.id = msg.comic_id → r.processed = true)
        ∧ ((analyze_comic jsonParse download ocr db msg updFail).2 = false →
          (analyze_comic jsonParse download ocr db msg updFail).1 = db)) := by
  constructor
  · intro Img download ocr p
    refine ⟨rfl, ?_, ?_, ?_⟩
    · intro i h1 h2
      rw [panelsGet]
      show ((((List.range' 1 (p.numPanels.getD 0)).map
        (fun j => (j, panelText download ocr p j))).find?
          (fun e => e.1 == i)).map (fun e => e.2)) = _
      rw [find_range_map (panelText download ocr p) (p.numPanels.getD 0) 1 i h1
        (by omega)]
      rfl
    · intro i h
      rcases h with h | h
      · simp [panelText, h]
      · simp [panelText, h]
    · intro i url hurl hne hdl
      simp [panelText, hurl, hne, hdl]
  · intro Img jsonParse download ocr db msg updFail
    have hcore : ∀ p : PanelsDict,
        ((update_comic db msg.comic_id
            ⟨process_comic_panels download ocr p, true⟩ updFail).2 = true →
          ∀ r, r ∈ (update_comic db msg.comic_id
              ⟨process_comic_panels download ocr p, true⟩ updFail).1.rows →
            some r.id = msg.comic_id → r.processed = true)
        ∧ ((update_comic db msg.comic_id
            ⟨process_comic_panels download ocr p, true⟩ updFail).2 = false →
          (update_comic db msg.comic_id
            ⟨process_comic_panels download ocr p, true⟩ updFail).1 = db) :=
      fun p => update_comic_spec db msg.comic_id
        ⟨process_comic_panels download ocr p, true⟩ updFail
    cases hpf : msg.panel_urls with
    | obj p => simpa only [analyze_comic, hpf] using hcore p
    | absent => simpa only [analyze_comic, hpf] using hcore ⟨none, []⟩
    | strv s =>
      cases hjp : jsonParse s with
      | some p => simpa only [analyze_comic, hpf, hjp] using hcore p
      | none =>
        constructor
        · intro hsucc
          simp [analyze_comic, hpf, hjp] at hsucc
        · intro _
          simp [analyze_comic, hpf, hjp]

/-- Witness for C8 (scenario D): three panels of which the second
fails to download — its index is still present, mapped to empty text. -/
theorem process_comic_panels_contract_witness :
    panelsGet (process_comic_panels
        (fun u => if u = "u2" then (none : Option Unit) else some ())
        (fun _ => "HELLO") ⟨some 3, [(1, "u1"), (2, "u2"), (3, "u3")]⟩) 2
      = some (panelText
        (fun u => if u = "u2" then (none : Option Unit) else some ())
        (fun _ => "HELLO") ⟨some 3, [(1, "u1"), (2, "u2"), (3, "u3")]⟩ 2)
    ∧ panelText
        (fun u => if u = "u2" then (none : Option Unit) else some ())
        (fun _ => "HELLO") ⟨some 3, [(1, "u1"), (2, "u2"), (3, "u3")]⟩ 2
      = "" :=
  ⟨(process_comic_panels_contract.1 _ _ _).2.1 2 (by decide) (by decide),
   (process_comic_panels_contract.1 _ _ _).2.2.2 2 "u2" rfl (by decide) rfl⟩

/-- C7: the consumer callback acknowledges a delivery exactly when the
enrichment succeeds or the message payload is unparseable (the poison
message is dropped), and negatively acknowledges with requeue on every
other enrichment failure. -/
theorem callback_ack_policy :
    ∀ {Img : Type} (jsonParse : String → Option PanelsDict)
      (download : String → Option Img) (ocr : Img → String)
      (msgParse : Option EnrichMessage) (db : ComicsDB) (updFail : Bool),
      ((callback jsonParse download ocr msgParse db updFail).2 = AckAction.ack
        ↔ (msgParse = none
          ∨ ∃ m, msgParse = some m
            ∧ (analyze_comic jsonParse download ocr db m updFail).2 = true))
      ∧ ((callback jsonParse download ocr msgParse db updFail).2
            = AckAction.nackRequeue
        ↔ ∃ m, msgParse = some m
            ∧ (analyze_comic jsonParse download ocr db m updFail).2 = false) := by
  intro Img jsonParse download ocr msgParse db updFail
  cases msgParse with
  | none => exact ⟨by simp [callback], by simp [callback]⟩
  | some m =>
    cases hres : (analyze_comic jsonParse download ocr db m updFail).2 with
    | true => exact ⟨by simp [callback, hres], by simp [callback, hres]⟩
    | false => exact ⟨by simp [callback, hres], by simp [callback, hres]⟩

/-- C9: a message whose `panel_urls` field is the JSON string encoding
of a panel object is analyzed with the very same result and the very
same storage update as the message carrying the object directly. -/
theorem analyze_comic_string_obj_equiv :
    ∀ {Img : Type} (jsonParse : String → Option PanelsDict)
      (download : String → Option Img) (ocr : Img → String)
      (db : ComicsDB) (cid : Option Int) (title s : String)
      (p : PanelsDict) (updFail : Bool),
      jsonParse s = some p →
      analyze_comic jsonParse download ocr db ⟨cid, title, .strv s⟩ updFail
        = analyze_comic jsonParse download ocr db ⟨cid, title, .obj p⟩
            updFail := by
  intro Img jsonParse download ocr db cid title s p updFail h
  simp [analyze_comic, h]

/-- Witness for C9: a concrete decoder mapping the string `"enc"` to a
concrete panel object. -/
theorem analyze_comic_string_obj_equiv_witness :
    analyze_comic
        (fun t => if t = "enc" then some ⟨some 1, [(1, "")]⟩ else none)
        (fun _ => (none : Option Unit)) (fun _ => "")
        ⟨[⟨1, "t", "u", none, "p", none, false⟩], 2⟩
        ⟨some 1, "T", .strv "enc"⟩ false
      = analyze_comic
        (fun t => if t = "enc" then some ⟨some 1, [(1, "")]⟩ else none)
        (fun _ => (none : Option Unit)) (fun _ => "")
        ⟨[⟨1, "t", "u", none, "p", none, false⟩], 2⟩
        ⟨some 1, "T", .obj ⟨some 1, [(1, "")]⟩⟩ false :=
  analyze_comic_string_obj_equiv _ _ _ _ (some 1) "T" "enc" _ false (by decide)
